import Mathlib

/-!
Verification development for the command dispatch and authorization runtime
of an async chat-bot SDK.  The definitions below are a shallow embedding of
`bot_sdk/commands.py`, `bot_sdk/bot.py` and the permission computation they
implement.  External collaborators (the chat transport, the key-value
storage, the remote org-role query) are abstracted as oracle fields of an
environment record, following the system's own interface boundary.
-/

namespace BotSdk

/-!
Primitive string operations.  Python strings are sequences of code points,
so the embedding realises `lower`, `strip`, `split`, `startswith`, slicing
and `lstrip` as structurally recursive operations on the character list of
a `String`; this keeps every definition evaluable by the kernel.
-/

/-- Python `str.lower()` (ASCII case mapping, as the sources only compare
ASCII command names and aliases). -/
def strLower (s : String) : String := ⟨s.toList.map Char.toLower⟩

/-- Python `str.strip()`: drop whitespace from both ends. -/
def strTrim (s : String) : String :=
  ⟨((s.toList.dropWhile Char.isWhitespace).reverse.dropWhile Char.isWhitespace).reverse⟩

/-- Python `str.startswith(pre)`. -/
def strStartsWith (s pre : String) : Bool := pre.toList.isPrefixOf s.toList

/-- Python slicing `s[n:]` (character count, as `len` counts characters). -/
def strDropChars (s : String) (n : Nat) : String := ⟨s.toList.drop n⟩

/-- Python `len(s)` in characters. -/
def strLen (s : String) : Nat := s.toList.length

/-- Python `str.lstrip(chars)`. -/
def strLStrip (s : String) (chars : List Char) : String :=
  ⟨s.toList.dropWhile (fun c => c ∈ chars)⟩

/-- Helper of `splitTokens`: accumulate the current word (reversed) while
scanning; whitespace finishes a word, empty words are dropped as Python
`str.split()` does. -/
def splitWsAux : List Char → List Char → List String
  | [], acc => if acc.isEmpty then [] else [⟨acc.reverse⟩]
  | c :: cs, acc =>
    if c.isWhitespace then
      if acc.isEmpty then splitWsAux cs []
      else String.mk acc.reverse :: splitWsAux cs []
    else splitWsAux cs (c :: acc)

/-- Python `str.split()` with no separator: split on whitespace runs,
dropping empty pieces. -/
def splitTokens (s : String) : List String := splitWsAux s.toList []

/-- Error taxonomy of `commands.py`.  In Python, `UnknownCommandError` and
`InvalidArgumentsError` are subclasses of the base `CommandError`; here each
is its own constructor and `commandError` stands for an instance of the base
class itself (raised by `parse_text` on empty input).  The first field of
`invalidArguments` mirrors the `command` attribute passed to the exception
constructor. -/
inductive CmdError where
  | commandError (msg : String)
  | unknownCommand (msg : String)
  | invalidArguments (command : String) (msg : String)
  deriving DecidableEq, Repr

/-- Whether an error is the `UnknownCommandError` classification. -/
def CmdError.isUnknown : CmdError → Bool
  | .unknownCommand _ => true
  | _ => false

/-- The scalar target types an argument may declare
(`ArgType = str | int | float | bool` in the source). -/
inductive ArgTy where
  | str
  | int
  | float
  | bool
  deriving DecidableEq, Repr

/-- Values produced by argument conversion.  Python floats are represented
by the accepted literal text (no floating-point arithmetic is performed by
the parser, only acceptance).  `null` is Python `None`, bound to missing
optional arguments; `list` is the sequence bound by a capture-remaining
argument. -/
inductive Value where
  | str (s : String)
  | int (n : Int)
  | float (lit : String)
  | bool (b : Bool)
  | null
  | list (vs : List Value)

/-- `CommandArgument` dataclass: name, target type, required flag,
description, and the `multiple` capture-remaining flag. -/
structure CommandArgument where
  name : String
  type : ArgTy := .str
  required : Bool := true
  description : String := ""
  multiple : Bool := false

/-- `CommandSpec` dataclass.  The handler is an opaque capability reference,
modelled by an identifier.  `minLevel` models the `min_level` attribute that
`bot.py` attaches to restricted built-in commands and reads back with
`getattr(spec, "min_level", None)`; a spec without the attribute is `none`. -/
structure CommandSpec where
  name : String
  description : String := ""
  args : List CommandArgument := []
  aliases : List String := []
  allowExtra : Bool := false
  handler : Option String := none
  showInHelp : Bool := true
  minLevel : Option Int := none

/-- `CommandInvocation` dataclass: resolved name, bound argument mapping in
insertion order, the raw token list, and the matched spec. -/
structure CommandInvocation where
  name : String
  args : List (String × Value)
  tokens : List String
  spec : CommandSpec

/-- State of a `CommandParser`: configured prefix strings, the mention
switch, the lowercased identity-alias list, and the two registration
tables (dictionaries modelled as lookup functions). -/
structure ParserState where
  prefixes : List String
  enableMentions : Bool
  mentionAliases : List String
  specs : String → Option CommandSpec
  aliasIndex : String → Option String

/-- `CommandParser.register_spec`: store the spec under its name and point
every alias at that name. -/
def register_spec (p : ParserState) (s : CommandSpec) : ParserState :=
  { p with
    specs := fun n => if n = s.name then some s else p.specs n
    aliasIndex := fun a => if a ∈ s.aliases then some s.name else p.aliasIndex a }

/-- `CommandParser.set_mentions`: replace the alias list with the lowercased
non-empty entries of the given list. -/
def set_mentions (p : ParserState) (aliases : List String) : ParserState :=
  { p with mentionAliases := (aliases.filter (· ≠ "")).map strLower }

/-- `CommandParser.add_identity_aliases`: append mention forms derived from
the bot's display name and email, plus extra entries, lowercased, keeping
only non-empty ones.  Python truthiness of the optional strings is the
non-empty test. -/
def add_identity_aliases (p : ParserState) (fullName : Option String)
    (email : Option String) (extra : List String) : ParserState :=
  let fromName : List String :=
    match fullName with
    | some n => if n ≠ "" then ["@**" ++ n ++ "**", "@" ++ n] else []
    | none => []
  let fromEmail : List String :=
    match email with
    | some e => if e ≠ "" then ["@" ++ e] else []
    | none => []
  let aliases := fromName ++ fromEmail ++ extra
  { p with mentionAliases :=
      p.mentionAliases ++ (aliases.filter (· ≠ "")).map strLower }

/-- `CommandParser._strip_prefix_or_mention`: try each configured prefix as
an exact string prefix (returning the rest, trimmed); otherwise, when
mentions are enabled and aliases exist, try each stored alias as a prefix of
the lowercased text, stripping the alias length and any following
space/colon/comma/hyphen characters. -/
def stripPrefixOrMention (p : ParserState) (text : String) : Option String :=
  match p.prefixes.find? (fun pre => strStartsWith text pre) with
  | some pre => some (strTrim (strDropChars text (strLen pre)))
  | none =>
    if p.enableMentions ∧ p.mentionAliases ≠ [] then
      match p.mentionAliases.find? (fun a => strStartsWith (strLower text) a) with
      | some a => some (strLStrip (strDropChars text (strLen a)) [' ', ':', ',', '-'])
      | none => none
    else none

/-- `CommandParser._to_bool`: case-insensitive truthy/falsy word sets;
anything else is a conversion failure. -/
def to_bool (value : String) : Option Bool :=
  let lowered := strLower value
  if lowered ∈ ["true", "1", "yes", "y", "on"] then some true
  else if lowered ∈ ["false", "0", "no", "n", "off"] then some false
  else none

/-- Digits of a natural number literal; `none` when empty or non-digit. -/
def natDigits : List Char → Option Nat
  | [] => none
  | cs =>
    if cs.all Char.isDigit then
      some (cs.foldl (fun acc c => acc * 10 + (c.toNat - '0'.toNat)) 0)
    else none

/-- Python `int(str)` on a whitespace-free token: optional sign followed by
decimal digits. -/
def pyInt (s : String) : Option Int :=
  match s.toList with
  | '+' :: rest => (natDigits rest).map Int.ofNat
  | '-' :: rest => (natDigits rest).map (fun n => -(n : Int))
  | cs => (natDigits cs).map Int.ofNat

/-- Acceptance of Python `float(str)` on a whitespace-free token:
optional sign, then either digits with optional fraction and exponent, or
the words inf/infinity/nan (case-insensitive). -/
def pyFloatAccepts (s : String) : Bool :=
  let cs := (strLower s).toList
  let body := cs.dropWhile (fun c => c = '+' ∨ c = '-')
  let core :=
    if body = "inf".toList ∨ body = "infinity".toList ∨ body = "nan".toList then true
    else
      let mantissa := body.takeWhile (fun c => c.isDigit ∨ c = '.')
      let rest := body.drop mantissa.length
      let expOk : Bool :=
        match rest with
        | [] => true
        | 'e' :: e0 =>
          let e := e0.dropWhile (fun c => c = '+' ∨ c = '-')
          !e.isEmpty && e.all Char.isDigit
        | _ => false
      !(mantissa.filter Char.isDigit).isEmpty &&
        decide ((mantissa.filter (· = '.')).length ≤ 1) && expOk
  decide ((cs.filter (fun c => c = '+' ∨ c = '-')).length ≤ 1) && core

/-- `CommandParser._convert_value`: convert a token to the argument's
declared type; on failure the raised `InvalidArgumentsError` carries the
argument name in its `command` field (as in the source). -/
def convertValue (value : String) (a : CommandArgument) : Except CmdError Value :=
  let fail : Except CmdError Value :=
    .error (.invalidArguments a.name ("Invalid value for " ++ a.name ++ ": " ++ value))
  match a.type with
  | .str => .ok (.str value)
  | .int =>
    match pyInt value with
    | some n => .ok (.int n)
    | none => fail
  | .float => if pyFloatAccepts value then .ok (.float value) else fail
  | .bool =>
    match to_bool value with
    | some b => .ok (.bool b)
    | none => fail

/-- Recursive core of `CommandParser._parse_args`: walk the declarations in
order, consuming tokens positionally.  A `multiple` declaration converts and
captures every remaining token and breaks out of the loop (so the index
equals the token count and the trailing too-many check cannot fire).  At the
end of the declarations, leftover tokens fail with "Too many arguments"
unless `allowExtra`. -/
def bindArgs (specName : String) (allowExtra : Bool) :
    List CommandArgument → List String → Except CmdError (List (String × Value))
  | [], toks =>
    if ¬allowExtra ∧ toks ≠ [] then
      .error (.invalidArguments specName "Too many arguments")
    else .ok []
  | a :: rest, toks =>
    if a.multiple then
      match toks.mapM (fun t => convertValue t a) with
      | .error e => .error e
      | .ok vs => .ok [(a.name, .list vs)]
    else
      match toks with
      | [] =>
        if a.required then
          .error (.invalidArguments specName ("Missing argument: " ++ a.name))
        else
          match bindArgs specName allowExtra rest [] with
          | .error e => .error e
          | .ok l => .ok ((a.name, Value.null) :: l)
      | t :: ts =>
        match convertValue t a with
        | .error e => .error e
        | .ok v =>
          match bindArgs specName allowExtra rest ts with
          | .error e => .error e
          | .ok l => .ok ((a.name, v) :: l)

/-- `CommandParser._parse_args` applied to a spec. -/
def parse_args (argsTokens : List String) (spec : CommandSpec) :
    Except CmdError (List (String × Value)) :=
  bindArgs spec.name spec.allowExtra spec.args argsTokens

/-- Canonical command-name resolution shared by `parse_text` and the
pre-check in `on_event`: lowercase the token and send it through the alias
table, falling back to the token itself. -/
def resolveName (p : ParserState) (t : String) : String :=
  (p.aliasIndex (strLower t)).getD (strLower t)

/-- `CommandParser.parse_text`: split into tokens; zero tokens raise the
base `CommandError("Empty command")`; otherwise lowercase the first token,
resolve it through the alias table, look up the spec (unknown name raises
`UnknownCommandError`), and bind the remaining tokens. -/
def parse_text (p : ParserState) (text : String) : Except CmdError CommandInvocation :=
  match splitTokens text with
  | [] => .error (.commandError "Empty command")
  | t :: rest =>
    match p.specs (resolveName p t) with
    | none => .error (.unknownCommand ("Unknown command: " ++ resolveName p t))
    | some spec =>
      match bindArgs spec.name spec.allowExtra spec.args rest with
      | .error e => .error e
      | .ok args => .ok ⟨spec.name, args, t :: rest, spec⟩

/-- A message as the parser sees it: sender id and optional content
(`message.content or ""` treats `None` as empty). -/
structure Msg where
  senderId : Int
  content : Option String

/-- `CommandParser.parse_message`: trim; empty text or no matched opener is
`ok none` (an ordinary message); a matched opener commits to `parse_text`. -/
def parse_message (p : ParserState) (m : Msg) : Except CmdError (Option CommandInvocation) :=
  if strTrim (m.content.getD "") = "" then .ok none
  else
    match stripPrefixOrMention p (strTrim (m.content.getD "")) with
    | none => .ok none
    | some stripped =>
      match parse_text p stripped with
      | .error e => .error e
      | .ok inv => .ok (some inv)

/-- The four role levels `_compute_user_level` consults in the
`role_levels` dictionary; `none` means the key is absent, so the lookup
falls back to the default of `dict.get` (user 1, admin 50, owner 100,
bot_owner 200).  When the bot has no settings object the defaults
dictionary is used, which is this record with every field present at its
default value. -/
structure RoleLevels where
  user : Option Int
  admin : Option Int
  owner : Option Int
  botOwner : Option Int

/-- `role_levels.get("user", 1)`. -/
def RoleLevels.userL (r : RoleLevels) : Int := r.user.getD 1

/-- `role_levels.get("admin", 50)`. -/
def RoleLevels.adminL (r : RoleLevels) : Int := r.admin.getD 50

/-- `role_levels.get("owner", 100)`. -/
def RoleLevels.ownerL (r : RoleLevels) : Int := r.owner.getD 100

/-- `role_levels.get("bot_owner", 200)`. -/
def RoleLevels.botOwnerL (r : RoleLevels) : Int := r.botOwner.getD 200

/-- The bot-owner condition of `_compute_user_level`:
`self.settings and self.settings.owner_user_id and user_id == owner_user_id`.
`none` models a missing settings object; a configured id of `0` is falsy in
Python, so it never matches. -/
def isBotOwnerFact (ownerUserId : Option Int) (userId : Int) : Bool :=
  match ownerUserId with
  | some o => decide (o ≠ 0) && decide (userId = o)
  | none => false

/-- Core of `BaseBot._compute_user_level` over the three boolean
privileging facts: start from the configured user level, raise to the
bot-owner level on an owner-id match, then raise to the org-owner level if
the remote query reports owner, else to the org-admin level if it reports
admin.  Each applied source takes `max` with the running value. -/
def computeUserLevelCore (rl : RoleLevels) (isBotOwner isOrgOwner isOrgAdmin : Bool) : Int :=
  let level := rl.userL
  let level := if isBotOwner then max level rl.botOwnerL else level
  let level :=
    if isOrgOwner then max level rl.ownerL
    else if isOrgAdmin then max level rl.adminL
    else level
  level

/-- Environment of a running bot: its own identity, parser state,
settings-derived permission configuration, and the external collaborators
(remote org-role oracle, key-value storage holding the `"acl.stop"` list)
abstracted as fields.  `permsPresent` / `storagePresent` model the Python
truthiness guards `if self.perms:` / `if self.storage:`. -/
structure BotEnv where
  selfUserId : Int
  cmdParser : ParserState
  roleLevels : RoleLevels
  ownerUserId : Option Int
  permsPresent : Bool
  isOrgOwner : Int → Bool
  isOrgAdmin : Int → Bool
  storagePresent : Bool
  aclStop : List Int

/-- `BaseBot._compute_user_level` for a user, with the remote query answers
supplied by the environment oracles (`self.perms and await ...` short
circuits when the permission helper is absent; a failed remote query is
treated as neither owner nor admin). -/
def BotEnv.userLevel (env : BotEnv) (userId : Int) : Int :=
  computeUserLevelCore env.roleLevels
    (isBotOwnerFact env.ownerUserId userId)
    (env.permsPresent && env.isOrgOwner userId)
    (env.permsPresent && env.isOrgAdmin userId)

/-- The command-name-only spec resolution of the early permission check in
`BaseBot.on_event` (lines 476-492): trim the content, strip an opener, and
when the stripped remainder is non-empty (Python truthiness of the string)
resolve the first token through the alias table to a registered spec.
Any step failing yields no spec, which skips the pre-check. -/
def precheckSpec (p : ParserState) (content : Option String) : Option CommandSpec :=
  if strTrim (content.getD "") = "" then none
  else
    match stripPrefixOrMention p (strTrim (content.getD "")) with
    | none => none
    | some stripped =>
      if stripped = "" then none
      else
        match splitTokens stripped with
        | [] => none
        | t :: _ => p.specs (resolveName p t)

/-- Terminal outcome of `BaseBot.on_event` for a message event.  `deniedPre`
and `deniedPost` are the two permission-gate denials, `parseError` is a
parse failure answered with a command-error reply, `noHandler` is the
`CommandError` raised by `dispatch` for a spec without a handler (caught and
answered like any dispatch error), `dispatched` means the registered handler
is invoked, and `plainMessage` routes to `on_message`. -/
inductive DispatchOutcome where
  | ignoredSelf
  | deniedPre
  | parseError (e : CmdError)
  | deniedPost
  | noHandler (name : String)
  | dispatched (inv : CommandInvocation)
  | plainMessage

/-- Fixed denial notice sent by both permission gates. -/
def permissionDeniedMsg : String := "❌ Permission denied."

/-- Replies `on_event` itself sends before (or instead of) invoking the
handler; handler-issued replies are outside this model. -/
def outcomeReplies : DispatchOutcome → List String
  | .ignoredSelf => []
  | .deniedPre => [permissionDeniedMsg]
  | .parseError e =>
    ["Command error: " ++
      (match e with
       | .commandError m => m
       | .unknownCommand m => m
       | .invalidArguments _ m => m)]
  | .deniedPost => [permissionDeniedMsg]
  | .noHandler n => ["Command error: No handler registered for command: " ++ n]
  | .dispatched _ => []
  | .plainMessage => []

/-- Whether the outcome invokes the registered per-command handler. -/
def invokesHandler : DispatchOutcome → Bool
  | .dispatched _ => true
  | _ => false

/-- The early gate of `on_event` (lines 494-502): deny when the name-only
resolved spec carries a `min_level` above the sender's computed level.  No
ACL is consulted here. -/
def precheckDenies (env : BotEnv) (m : Msg) : Bool :=
  match precheckSpec env.cmdParser m.content with
  | some s =>
    match s.minLevel with
    | some L => decide (env.userLevel m.senderId < L)
    | none => false
  | none => false

/-- The post-parse gate of `on_event` (lines 513-518): deny when the built
invocation's spec carries a `min_level` above the sender's computed level.
Again purely numeric; no ACL is consulted. -/
def postDenies (env : BotEnv) (senderId : Int) (inv : CommandInvocation) : Bool :=
  match inv.spec.minLevel with
  | some L => decide (env.userLevel senderId < L)
  | none => false

/-- `BaseBot.on_event` for a message event: self-filter; early name-based
permission pre-check; full parse (failures answered with a command-error
reply); post-parse permission check on the resolved invocation's spec; then
dispatch to the spec's handler, or `on_message` when the text was not a
command. -/
def onEvent (env : BotEnv) (m : Msg) : DispatchOutcome :=
  if m.senderId = env.selfUserId then .ignoredSelf
  else if precheckDenies env m then .deniedPre
  else
    match parse_message env.cmdParser m with
    | .error e => .parseError e
    | .ok none => .plainMessage
    | .ok (some inv) =>
      if postDenies env m.senderId inv then .deniedPost
      else
        match inv.spec.handler with
        | none => .noHandler inv.name
        | some _ => .dispatched inv

/-- Outcome of `BaseBot._handle_stop` once invoked: deny unless either the
computed level reaches the configured admin level or the requester is in the
persisted `"acl.stop"` allow-list (an OR of the two conditions). -/
inductive StopOutcome where
  | denied
  | stopRequested
  deriving DecidableEq

/-- `BaseBot._handle_stop` decision: `stop_min = role_levels.get("admin", 50)`,
the unified level computation, and the storage-backed ACL membership. -/
def handleStop (env : BotEnv) (requester : Int) : StopOutcome :=
  let stopMin := env.roleLevels.adminL
  let userLevel := env.userLevel requester
  let aclAllowed := env.storagePresent && decide (requester ∈ env.aclStop)
  if userLevel < stopMin ∧ aclAllowed = false then .denied
  else .stopRequested

/-- The built-in stop command as `_register_commands` creates it with
default role levels: no arguments, the `_handle_stop` handler, and
`min_level = role_levels.get("admin", 50)`. -/
def stopSpec : CommandSpec :=
  { name := "stop"
    description := "Stop the bot"
    handler := some "handle_stop"
    minLevel := some 50 }

/-- A parser state reachable after startup registration: the `"!"` command
marker, mentions enabled with no learned aliases yet, and the stop command
registered. -/
def stopParser : ParserState :=
  { prefixes := ["!"]
    enableMentions := true
    mentionAliases := []
    specs := fun n => if n = "stop" then some stopSpec else none
    aliasIndex := fun _ => none }

/-- Concrete running-bot environment: the bot is user 1000, the configured
bot owner is user 99, default role levels, the remote org-role oracle
reports no roles, and the persisted `"acl.stop"` allow-list contains
user 42. -/
def env42 : BotEnv :=
  { selfUserId := 1000
    cmdParser := stopParser
    roleLevels := ⟨none, none, none, none⟩
    ownerUserId := some 99
    permsPresent := true
    isOrgOwner := fun _ => false
    isOrgAdmin := fun _ => false
    storagePresent := true
    aclStop := [42] }

/-- `"!stop"` sent by user 42 (who is on the stop allow-list). -/
def msgStop42 : Msg := ⟨42, some "!stop"⟩

/-- `"!stop"` sent by user 43 (not on any allow-list). -/
def msgStop43 : Msg := ⟨43, some "!stop"⟩

/-- The invocation `parse_message` builds for `"!stop"`. -/
def stopInv : CommandInvocation := ⟨"stop", [], ["stop"], stopSpec⟩

/-- The two-argument example spec of the positional-binding property:
`[a:int required, b:str optional]`, no extra tokens allowed. -/
def exSpecAB : CommandSpec :=
  { name := "c"
    args := [⟨"a", .int, true, "", false⟩, ⟨"b", .str, false, "", false⟩] }

/-- The capture-remaining example spec: a single `text: str, multiple=true`
argument. -/
def exSpecText : CommandSpec :=
  { name := "e"
    args := [⟨"text", .str, true, "", true⟩] }

/-- A parser that has already learned one identity alias. -/
def aliasParser : ParserState := { stopParser with mentionAliases := ["@bot"] }

/-- A required plain string argument named `a`. -/
def dupArgA : CommandArgument := ⟨"a", .str, true, "", false⟩

/-- A required capture-remaining argument named `m`. -/
def dupArgM : CommandArgument := ⟨"m", .str, true, "", true⟩

/-!
Helper lemmas shared by the claim theorems.
-/

/-- When the full parse succeeds, the name-only pre-check of `on_event`
resolves the same spec the invocation carries: both run the same
trim/strip/first-token/alias pipeline. -/
theorem precheck_of_parse (p : ParserState) (m : Msg) (inv : CommandInvocation)
    (h : parse_message p m = .ok (some inv)) :
    precheckSpec p m.content = some inv.spec := by
  unfold parse_message at h
  unfold precheckSpec
  split at h
  · simp at h
  · rename_i ht
    rw [if_neg ht]
    split at h
    · simp at h
    · rename_i s hs
      split at h
      · simp at h
      · rename_i inv' hp
        simp only [Except.ok.injEq, Option.some.injEq] at h
        subst h
        unfold parse_text at hp
        split at hp
        · simp at hp
        · rename_i t rest htk
          have hs' : s ≠ "" := by
            intro he; subst he; simp [splitTokens, splitWsAux] at htk
          simp only [if_neg hs']
          split at hp
          · simp at hp
          · rename_i spec hsp
            split at hp
            · simp at hp
            · rename_i args hb
              simp only [Except.ok.injEq] at hp
              rw [hsp, ← hp]

/-- Binding breaks at the first capture-remaining declaration: everything
declared after it never affects the result. -/
theorem bindArgs_break_at_multiple (sn : String) (ex : Bool) (m : CommandArgument)
    (hm : m.multiple = true) :
    ∀ (pre post : List CommandArgument) (toks : List String),
      (∀ x ∈ pre, x.multiple = false) →
      bindArgs sn ex (pre ++ m :: post) toks = bindArgs sn ex (pre ++ [m]) toks := by
  intro pre
  induction pre with
  | nil =>
    intro post toks _
    simp [bindArgs, hm]
  | cons a pre ih =>
    intro post toks hpre
    have ha : a.multiple = false := hpre a (by simp)
    have hpre' : ∀ x ∈ pre, x.multiple = false := fun x hx => hpre x (by simp [hx])
    cases toks with
    | nil =>
      by_cases hr : a.required = true
      · simp [bindArgs, ha, hr]
      · simp only [Bool.not_eq_true] at hr
        simp [bindArgs, ha, hr, ih post [] hpre']
    | cons t ts =>
      simp [bindArgs, ha, ih post ts hpre']

/-- Every key of a successful binding is the name of one of the consumed
declarations. -/
theorem bindArgs_keys_subset (sn : String) (ex : Bool) :
    ∀ (args : List CommandArgument) (toks : List String) (l : List (String × Value)),
      bindArgs sn ex args toks = .ok l →
      ∀ kv ∈ l, kv.1 ∈ args.map (fun a => a.name) := by
  intro args
  induction args with
  | nil =>
    intro toks l h kv hkv
    simp only [bindArgs] at h
    split at h
    · simp at h
    · simp only [Except.ok.injEq] at h
      subst h
      simp at hkv
  | cons a rest ih =>
    intro toks l h kv hkv
    simp only [bindArgs] at h
    split at h
    · split at h
      · simp at h
      · rename_i vs hvs
        simp only [Except.ok.injEq] at h
        subst h
        simp at hkv
        simp [hkv]
    · split at h
      · split at h
        · simp at h
        · split at h
          · simp at h
          · rename_i l' hl'
            simp only [Except.ok.injEq] at h
            subst h
            rcases List.mem_cons.mp hkv with hkv | hkv
            · subst hkv; simp
            · have := ih [] l' hl' kv hkv
              simp at this ⊢
              exact Or.inr this
      · split at h
        · simp at h
        · split at h
          · simp at h
          · rename_i l' hl'
            simp only [Except.ok.injEq] at h
            subst h
            rcases List.mem_cons.mp hkv with hkv | hkv
            · subst hkv; simp
            · have := ih _ l' hl' kv hkv
              simp at this ⊢
              exact Or.inr this

/-- Claim C1: a user on the persisted `"acl.stop"` allow-list dispatching
the stop command is supposed to reach the stop behaviour even when their
numeric level is below the command's minimum level (ACL ORed with the
numeric check end to end).  The code does not do this: user 42 is on the
allow-list, the stop handler itself would grant the request
(`handleStop env42 42 = .stopRequested`), yet `on_event`'s name-based
pre-check compares only the numeric level (1 < 50) and denies before the
handler can run, so the ACL override is unreachable through dispatch. -/
theorem C1_stop_acl_unreachable_through_dispatch :
    onEvent env42 msgStop42 = .deniedPre
    ∧ invokesHandler (onEvent env42 msgStop42) = false
    ∧ outcomeReplies (onEvent env42 msgStop42) = [permissionDeniedMsg]
    ∧ (42 : Int) ∈ env42.aclStop
    ∧ stopSpec.minLevel = some 50
    ∧ env42.userLevel 42 < 50
    ∧ parse_message env42.cmdParser msgStop42 = .ok (some stopInv)
    ∧ stopInv.spec = stopSpec
    ∧ handleStop env42 42 = .stopRequested :=
  ⟨rfl, rfl, rfl, by decide, rfl, by decide, rfl, rfl, by decide⟩

/-- Claim C2, counterexample: with role levels configured as
`{user: 1, admin: 50, owner: 10, bot_owner: 200}` and org-admin true,
turning the org-owner fact from false to true LOWERS the computed level
(from 50 to 10), because the org-role sources are an else-if chain and a
true org-owner fact suppresses the org-admin raise.  This refutes the
claim's universal monotonicity over every role-level configuration. -/
theorem C2_level_monotonicity_counterexample :
    computeUserLevelCore ⟨some 1, some 50, some 10, some 200⟩ false true true <
      computeUserLevelCore ⟨some 1, some 50, some 10, some 200⟩ false false true := by
  decide

/-- Claim C2, amended: the computed level is monotone in the bot-owner fact
and in the org-admin fact for every role-level configuration, and monotone
in the org-owner fact whenever the configured owner level is at least the
configured admin level (true for the defaults); moreover each source only
raises the running value, which never drops below the base user level nor
below the value after the bot-owner source. -/
theorem C2_level_monotonicity_amended :
    (∀ (rl : RoleLevels) (o a : Bool),
      computeUserLevelCore rl false o a ≤ computeUserLevelCore rl true o a)
    ∧ (∀ (rl : RoleLevels) (b o : Bool),
      computeUserLevelCore rl b o false ≤ computeUserLevelCore rl b o true)
    ∧ (∀ (rl : RoleLevels) (b a : Bool), rl.adminL ≤ rl.ownerL →
      computeUserLevelCore rl b false a ≤ computeUserLevelCore rl b true a)
    ∧ (∀ (rl : RoleLevels) (b o a : Bool),
      rl.userL ≤ computeUserLevelCore rl b o a
      ∧ (if b then max rl.userL rl.botOwnerL else rl.userL) ≤
          computeUserLevelCore rl b o a) := by
  refine ⟨?_, ?_, ?_, ?_⟩
  · intro rl o a
    cases o <;> cases a <;> simp [computeUserLevelCore] <;> omega
  · intro rl b o
    cases b <;> cases o <;> simp [computeUserLevelCore] <;> omega
  · intro rl b a h
    cases b <;> cases a <;> simp [computeUserLevelCore] <;> omega
  · intro rl b o a
    cases b <;> cases o <;> cases a <;> simp [computeUserLevelCore] <;> omega

/-- Witness for C2's amended theorem at the default role levels: the
org-owner monotonicity hypothesis (admin level 50 ≤ owner level 100) holds
and the conclusion follows at a concrete configuration. -/
theorem C2_level_monotonicity_witness :
    computeUserLevelCore ⟨none, none, none, none⟩ true false true ≤
      computeUserLevelCore ⟨none, none, none, none⟩ true true true :=
  C2_level_monotonicity_amended.2.2.1 ⟨none, none, none, none⟩ true true (by decide)

/-- Claim C3: a non-self sender invoking a command whose spec carries a
minimum level `L`, with a computed level strictly below `L` and absent from
the stop allow-list, never reaches the handler and receives exactly one
fixed denial reply; the name-based pre-check (which agrees with the
post-parse spec resolution) short-circuits dispatch. -/
theorem C3_below_min_level_denied (env : BotEnv) (m : Msg)
    (inv : CommandInvocation) (L : Int)
    (hself : ¬m.senderId = env.selfUserId)
    (hparse : parse_message env.cmdParser m = .ok (some inv))
    (hmin : inv.spec.minLevel = some L)
    (hlvl : env.userLevel m.senderId < L)
    (hacl : m.senderId ∉ env.aclStop) :
    onEvent env m = .deniedPre
    ∧ invokesHandler (onEvent env m) = false
    ∧ outcomeReplies (onEvent env m) = [permissionDeniedMsg] := by
  have hpre : precheckSpec env.cmdParser m.content = some inv.spec :=
    precheck_of_parse env.cmdParser m inv hparse
  have hd : precheckDenies env m = true := by
    simp only [precheckDenies, hpre, hmin, decide_eq_true_eq]
    exact hlvl
  have hout : onEvent env m = .deniedPre := by
    simp only [onEvent, if_neg hself, hd, if_true]
  exact ⟨hout, by rw [hout]; rfl, by rw [hout]; rfl⟩

/-- Witness for C3 at a concrete input: user 43 (level 1, not on the
allow-list) sends `"!stop"` (minimum level 50) to the bot of `env42`. -/
theorem C3_below_min_level_denied_witness :
    onEvent env42 msgStop43 = .deniedPre
    ∧ invokesHandler (onEvent env42 msgStop43) = false
    ∧ outcomeReplies (onEvent env42 msgStop43) = [permissionDeniedMsg] :=
  C3_below_min_level_denied env42 msgStop43 stopInv 50
    (by decide) rfl rfl (by decide) (by decide)

/-- Claim C4: argument binding is positional and order-preserving.  For the
spec `[a:int required, b:str optional]`, `"5"` binds `{a:5, b:null}` and
`"5 x y"` without allow-extra fails with `InvalidArguments` ("Too many
arguments"); in general, running out of tokens at a required declaration
fails naming that argument, a missing optional binds `null` and binding
continues, leftover tokens without allow-extra fail, and a one-token step
converts the token to the declared type before binding the next
declaration. -/
theorem C4_positional_binding :
    parse_args ["5"] exSpecAB = .ok [("a", .int 5), ("b", .null)]
    ∧ parse_args ["5", "x", "y"] exSpecAB =
        .error (.invalidArguments "c" "Too many arguments")
    ∧ (∀ (sn : String) (ex : Bool) (a : CommandArgument) (rest : List CommandArgument),
        a.required = true → a.multiple = false →
        bindArgs sn ex (a :: rest) [] =
          .error (.invalidArguments sn ("Missing argument: " ++ a.name)))
    ∧ (∀ (sn : String) (ex : Bool) (a : CommandArgument) (rest : List CommandArgument),
        a.required = false → a.multiple = false →
        bindArgs sn ex (a :: rest) [] =
          match bindArgs sn ex rest [] with
          | .error e => .error e
          | .ok l => .ok ((a.name, Value.null) :: l))
    ∧ (∀ (sn : String) (toks : List String), toks ≠ [] →
        bindArgs sn false [] toks = .error (.invalidArguments sn "Too many arguments"))
    ∧ (∀ (sn : String) (ex : Bool) (a : CommandArgument) (rest : List CommandArgument)
        (t : String) (ts : List String), a.multiple = false →
        bindArgs sn ex (a :: rest) (t :: ts) =
          match convertValue t a with
          | .error e => .error e
          | .ok v =>
            match bindArgs sn ex rest ts with
            | .error e => .error e
            | .ok l => .ok ((a.name, v) :: l)) := by
  refine ⟨rfl, rfl, ?_, ?_, ?_, ?_⟩
  · intro sn ex a rest hr hm
    simp [bindArgs, hm, hr]
  · intro sn ex a rest hr hm
    simp [bindArgs, hm, hr]
  · intro sn toks h
    simp [bindArgs, h]
  · intro sn ex a rest t ts hm
    simp [bindArgs, hm]

/-- Witness for C4's universally quantified conjuncts at concrete inputs:
a missing required argument and a leftover token. -/
theorem C4_positional_binding_witness :
    bindArgs "c" false [⟨"r", .str, true, "", false⟩] [] =
      .error (.invalidArguments "c" "Missing argument: r")
    ∧ bindArgs "c" false [] ["z"] =
      .error (.invalidArguments "c" "Too many arguments") :=
  ⟨C4_positional_binding.2.2.1 "c" false ⟨"r", .str, true, "", false⟩ [] rfl rfl,
   C4_positional_binding.2.2.2.2.1 "c" ["z"] (by decide)⟩

/-- Claim C5: a capture-remaining declaration consumes every remaining
token (possibly zero) as individually converted values and terminates
binding there — the declarations after it do not appear in the result.  For
the spec `[text: str, multiple=true]`, `"a b c"` binds
`{text:["a","b","c"]}` and no trailing tokens bind `{text:[]}`. -/
theorem C5_capture_remaining :
    (∀ (sn : String) (ex : Bool) (a : CommandArgument) (rest : List CommandArgument)
        (toks : List String), a.multiple = true →
      bindArgs sn ex (a :: rest) toks =
        match toks.mapM (fun t => convertValue t a) with
        | .error e => .error e
        | .ok vs => .ok [(a.name, .list vs)])
    ∧ parse_args ["a", "b", "c"] exSpecText =
        .ok [("text", .list [.str "a", .str "b", .str "c"])]
    ∧ parse_args [] exSpecText = .ok [("text", .list [])] := by
  refine ⟨?_, rfl, rfl⟩
  intro sn ex a rest toks hm
  simp [bindArgs, hm]

/-- Witness for C5's universal conjunct at a concrete input. -/
theorem C5_capture_remaining_witness :
    bindArgs "e" false [⟨"text", .str, true, "", true⟩] ["a"] =
      match ["a"].mapM (fun t => convertValue t ⟨"text", .str, true, "", true⟩) with
      | .error e => .error e
      | .ok vs => .ok [("text", Value.list vs)] :=
  C5_capture_remaining.1 "e" false ⟨"text", .str, true, "", true⟩ [] ["a"] rfl

/-- Claim C6, counterexample: the claim classifies the zero-tokens-after-
opener failure as `UnknownCommand`; the code raises the base
`CommandError("Empty command")` instead, which is not the `UnknownCommand`
classification.  Concretely, parsing the message `"!"` fails hard with the
base error. -/
theorem C6_empty_after_opener_counterexample :
    parse_message stopParser ⟨5, some "!"⟩ =
      .error (.commandError "Empty command")
    ∧ (CmdError.commandError "Empty command").isUnknown = false :=
  ⟨rfl, rfl⟩

/-- Claim C6, amended: a matched opener followed by zero tokens is a hard
parse failure raising the base command error with message "Empty command"
(not the `UnknownCommand` classification), never a null
ordinary-message result. -/
theorem C6_empty_after_opener_amended (p : ParserState) (m : Msg) (s : String)
    (ht : ¬strTrim (m.content.getD "") = "")
    (hs : stripPrefixOrMention p (strTrim (m.content.getD "")) = some s)
    (htk : splitTokens s = []) :
    parse_message p m = .error (.commandError "Empty command") := by
  unfold parse_message
  rw [if_neg ht]
  have hpt : parse_text p s = .error (.commandError "Empty command") := by
    unfold parse_text
    simp only [htk]
  simp only [hs, hpt]

/-- Witness for C6's amended theorem: the message `"!"` against the
concrete parser. -/
theorem C6_empty_after_opener_witness :
    parse_message stopParser ⟨6, some "! "⟩ =
      .error (.commandError "Empty command") :=
  C6_empty_after_opener_amended stopParser ⟨6, some "! "⟩ ""
    (by decide) (by decide) (by decide)

/-- Claim C7: a message whose trimmed text is empty, or starts with no
configured prefix string and (when mentions are enabled) with no stored
identity alias as a prefix of its lowercased text, parses to the null
ordinary-message result with no error, whatever the registered command
table.  Stored aliases are lowercased at insertion, so the prefix test
against the lowercased text is the case-insensitive match of the claim. -/
theorem C7_non_command_returns_null (p : ParserState) (m : Msg)
    (h : strTrim (m.content.getD "") = "" ∨
      ((∀ pre ∈ p.prefixes,
          strStartsWith (strTrim (m.content.getD "")) pre = false)
        ∧ (p.enableMentions = true →
          ∀ a ∈ p.mentionAliases,
            strStartsWith (strLower (strTrim (m.content.getD ""))) a = false))) :
    parse_message p m = .ok none := by
  unfold parse_message
  by_cases ht : strTrim (m.content.getD "") = ""
  · rw [if_pos ht]
  · rw [if_neg ht]
    rcases h with h | ⟨h1, h2⟩
    · exact absurd h ht
    · have hstrip : stripPrefixOrMention p (strTrim (m.content.getD "")) = none := by
        unfold stripPrefixOrMention
        have hf : p.prefixes.find?
            (fun pre => strStartsWith (strTrim (m.content.getD "")) pre) = none :=
          List.find?_eq_none.mpr (fun x hx => by simp [h1 x hx])
        simp only [hf]
        split_ifs with hc
        · have hf2 : p.mentionAliases.find?
              (fun a => strStartsWith (strLower (strTrim (m.content.getD ""))) a) = none :=
            List.find?_eq_none.mpr (fun a ha => by simp [h2 hc.1 a ha])
          simp only [hf2]
        · rfl
      simp only [hstrip]

/-- Witness for C7: the plain message `"hello"` against the concrete
parser is not a command. -/
theorem C7_non_command_returns_null_witness :
    parse_message stopParser ⟨7, some "hello"⟩ = .ok none :=
  C7_non_command_returns_null stopParser ⟨7, some "hello"⟩
    (Or.inr ⟨by decide, fun _ => by decide⟩)

/-- Claim C8, counterexample: the claim says no public-interface operation
removes or replaces existing identity aliases, but `set_mentions` replaces
the whole list: after `set_mentions []` on a parser knowing `"@bot"`, that
alias is gone. -/
theorem C8_alias_growth_counterexample :
    "@bot" ∈ aliasParser.mentionAliases
    ∧ "@bot" ∉ (set_mentions aliasParser []).mentionAliases := by
  exact ⟨by decide, by decide⟩

/-- Claim C8, amended: the alias set only grows under every operation
except `set_mentions` (which replaces the list wholesale and is invoked
only at construction in the bot lifecycle): `add_identity_aliases` only
appends, and spec registration leaves the alias set untouched. -/
theorem C8_alias_growth_amended (p : ParserState) (fn em : Option String)
    (ex : List String) (s : CommandSpec) :
    (∀ a ∈ p.mentionAliases,
      a ∈ (add_identity_aliases p fn em ex).mentionAliases)
    ∧ (register_spec p s).mentionAliases = p.mentionAliases := by
  refine ⟨?_, rfl⟩
  intro a ha
  unfold add_identity_aliases
  simp only [List.mem_append]
  exact Or.inl ha

/-- Witness for C8's amended theorem: `"@bot"` survives learning a new
identity. -/
theorem C8_alias_growth_witness :
    "@bot" ∈ (add_identity_aliases aliasParser (some "Bot") none []).mentionAliases :=
  (C8_alias_growth_amended aliasParser (some "Bot") none [] stopSpec).1 "@bot" (by decide)

/-- Claim C10, counterexample: the claim says the names of declarations
after a capture-remaining argument are entirely absent from the resulting
args mapping.  The mapping is keyed by name, so a later declaration that
shares its name with an earlier one is not absent: in the spec
`[a required, m capture-remaining, a required]`, parsing `"x"` succeeds and
the name `"a"` of the post-capture required declaration is a key of the
result (bound by the first declaration). -/
theorem C10_after_capture_counterexample :
    bindArgs "c" false [dupArgA, dupArgM, dupArgA] ["x"] =
      .ok [("a", .str "x"), ("m", .list [])]
    ∧ dupArgA.required = true
    ∧ dupArgA.multiple = false
    ∧ dupArgM.multiple = true
    ∧ "a" ∈ [("a", Value.str "x"), ("m", Value.list [])].map Prod.fst :=
  ⟨rfl, rfl, rfl, rfl, by decide⟩

/-- Claim C10, amended: binding breaks at the capture-remaining
declaration, so the whole parse result is identical to that of the spec
truncated right after it — in particular no missing-argument failure can
arise for the later declarations — and a later declaration's name is absent
from a successful result whenever it does not also occur among the
declarations up to and including the capture-remaining one. -/
theorem C10_after_capture_amended (sn : String) (ex : Bool) (m : CommandArgument)
    (pre post : List CommandArgument) (toks : List String)
    (hm : m.multiple = true) (hpre : ∀ x ∈ pre, x.multiple = false) :
    bindArgs sn ex (pre ++ m :: post) toks = bindArgs sn ex (pre ++ [m]) toks
    ∧ ∀ (l : List (String × Value)),
        bindArgs sn ex (pre ++ m :: post) toks = .ok l →
        ∀ arg ∈ post, arg.name ∉ (pre ++ [m]).map (fun a => a.name) →
          arg.name ∉ l.map Prod.fst := by
  have hbreak := bindArgs_break_at_multiple sn ex m hm pre post toks hpre
  refine ⟨hbreak, ?_⟩
  intro l hl arg _ hname hmem
  rw [hbreak] at hl
  obtain ⟨kv, hkv, hfst⟩ := List.mem_map.mp hmem
  have hsub := bindArgs_keys_subset sn ex (pre ++ [m]) toks l hl kv hkv
  rw [hfst] at hsub
  exact hname hsub

/-- Witness for C10's amended theorem at a concrete input: a required
declaration `z` after the capture-remaining `m` does not change the result. -/
theorem C10_after_capture_witness :
    bindArgs "c" false [dupArgA, dupArgM, ⟨"z", .str, true, "", false⟩] ["x"] =
      bindArgs "c" false [dupArgA, dupArgM] ["x"] :=
  (C10_after_capture_amended "c" false dupArgM [dupArgA]
    [⟨"z", .str, true, "", false⟩] ["x"] rfl
    (by intro x hx; simp at hx; subst hx; rfl)).1

end BotSdk
